import Mathlib

/-!
Shallow embedding of the `DirModel` class of `src/main.cpp` (qmlfilemuncher).

The filesystem is modelled as a function from directory paths to an optional
list of raw entries: `none` stands for a directory that does not exist or is
not readable (in which case `QDirIterator` yields no entries), `some l` for a
readable directory whose iterator yields exactly the entries of `l`.

`QString::localeAwareCompare` is modelled by the lexicographic linear order
on the names' character sequences (`String.data`): the claims only depend on
it being a total comparison, not on the particular collation.  Machine integers (`qint64` sizes, `int` rows) are modelled as
`Nat`/`Int`; file sizes are non-negative so `Nat` is exact.

Side effects observable by the caller/View are reified:
  * `Sig` — signals emitted during an operation (`beginResetModel`,
    `pathChanged`, `endResetModel`);
  * `FsOp` — filesystem calls issued (`QFile::rename`, `QDir::rename`,
    `QFile::remove`);
  * `Warn` — `qWarning` diagnostics that report a per-path removal failure.
Outcomes of the OS primitives (`QFile::rename`, `QDir::rename`,
`QFile::remove`) are supplied as parameters, since they depend on the live
filesystem.
-/

namespace FileMuncher

/-- A `QVariant` payload; `Option QVariantVal` plays the role of `QVariant`
with `none` as the invalid/empty variant. -/
inductive QVariantVal where
  | str (s : String)
  | date (t : Nat)
  | boolean (b : Bool)
  | url (u : String)
deriving DecidableEq, Repr

/-- Snapshot of one directory entry, as captured by `QDirIterator::fileInfo()`
(`QFileInfo`).  `absolutePath` is the path of the containing directory;
`filePath` is the path of the entry itself. -/
structure QFileInfo where
  fileName : String
  absolutePath : String
  filePath : String
  isDir : Bool
  size : Nat
  created : Nat
  lastModified : Nat
deriving DecidableEq, Repr

/-- `QFileInfo::absoluteFilePath()`: containing directory plus separator plus
base name (`QDir::separator()` is `/` on UNIX, the only supported platform). -/
def QFileInfo.absoluteFilePath (fi : QFileInfo) : String :=
  fi.absolutePath ++ "/" ++ fi.fileName

/-- `Qt::UserRole`. -/
def QtUserRole : Nat := 256

/-- The `Roles` enum of `DirModel` (`FileNameRole = Qt::UserRole`, the rest
consecutive). -/
def FileNameRole : Nat := QtUserRole
def CreationDateRole : Nat := QtUserRole + 1
def ModifiedDateRole : Nat := QtUserRole + 2
def FileSizeRole : Nat := QtUserRole + 3
def IconSourceRole : Nat := QtUserRole + 4
def FilePathRole : Nat := QtUserRole + 5
def IsDirRole : Nat := QtUserRole + 6
def IsFileRole : Nat := QtUserRole + 7

/-- The role table built in the `DirModel` constructor: role value to string
key. -/
def roleNames : List (Nat × String) :=
  [(FileNameRole, "fileName"), (CreationDateRole, "creationDate"),
   (ModifiedDateRole, "modifiedDate"), (FileSizeRole, "fileSize"),
   (IconSourceRole, "iconSource"), (FilePathRole, "filePath"),
   (IsDirRole, "isDir"), (IsFileRole, "isFile")]

/-- `mRoleMapping`: the reverse mapping, string key to role value, with
`none` when the key is absent (`constFind` hitting `constEnd`). -/
def mRoleMapping (stringRole : String) : Option Nat :=
  (roleNames.find? (fun p => p.2 == stringRole)).map Prod.fst

/-- Model state: `mCurrentDir` (kept as its path string) and
`mDirectoryContents`. -/
structure DirModel where
  mCurrentDir : String
  mDirectoryContents : List QFileInfo
deriving DecidableEq, Repr

/-- `DirModel::path()`. -/
def DirModel.path (m : DirModel) : String := m.mCurrentDir

/-- `DirModel::rowCount` for the root index. -/
def DirModel.rowCount (m : DirModel) : Nat := m.mDirectoryContents.length

/-- The `FileSizeRole` branch of `DirModel::data`: `kb = size / 1024`; below
1 kb print bytes, below 1024 kb print kb, otherwise divide again and print
mb (no space before `mb`, matching the source). -/
def fileSizeString (size : Nat) : String :=
  let kb := size / 1024
  if kb < 1 then toString size ++ " bytes"
  else if kb < 1024 then toString kb ++ " kb"
  else toString (kb / 1024) ++ "mb"

/-- The `IconSourceRole` branch of `DirModel::data`. -/
def iconSource (fi : QFileInfo) : QVariantVal :=
  if fi.fileName.endsWith ".jpg" || fi.fileName.endsWith ".png" then
    .url fi.filePath
  else if fi.isDir then .str "image://theme/icon-m-common-directory"
  else .str "image://theme/icon-m-content-document"

/-- The `switch (role)` body of `DirModel::data(QModelIndex, int)`, applied
to the entry at the requested row. -/
def dataForRole (fi : QFileInfo) (role : Nat) : Option QVariantVal :=
  if role = FileNameRole then some (.str fi.fileName)
  else if role = CreationDateRole then some (.date fi.created)
  else if role = ModifiedDateRole then some (.date fi.lastModified)
  else if role = FileSizeRole then some (.str (fileSizeString fi.size))
  else if role = IconSourceRole then some (iconSource fi)
  else if role = FilePathRole then some (.str fi.filePath)
  else if role = IsDirRole then some (.boolean fi.isDir)
  else if role = IsFileRole then some (.boolean (!fi.isDir))
  else none

/-- `DirModel::data(QModelIndex, int)` (column fixed at 0, as produced by
`index(row, 0)`): out-of-range roles and out-of-bounds rows yield the empty
variant. -/
def DirModel.data (m : DirModel) (row : Int) (role : Nat) : Option QVariantVal :=
  if role < FileNameRole ∨ IsFileRole < role then none
  else if row < 0 ∨ (m.mDirectoryContents.length : Int) ≤ row then none
  else
    match m.mDirectoryContents[row.toNat]? with
    | some fi => dataForRole fi role
    | none => none

/-- `DirModel::data(int, QByteArray)`: look the string key up in
`mRoleMapping`; an unknown key yields the empty variant, otherwise delegate
to `data(index(row, 0), role)`. -/
def DirModel.dataByName (m : DirModel) (row : Int) (stringRole : String) :
    Option QVariantVal :=
  match mRoleMapping stringRole with
  | none => none
  | some role => m.data row role

/-- The name comparison used by `DirModel::fileCompare`
(`QString::localeAwareCompare(a, b) < 0`), modelled as the lexicographic
order on the character sequences. -/
def nameLt (a b : String) : Prop := a.data < b.data

instance : DecidableRel nameLt := fun a b => by
  unfold nameLt; infer_instance

/-- `DirModel::fileCompare`: directories strictly precede non-directories;
otherwise compare file names. -/
def fileCompare (a b : QFileInfo) : Bool :=
  if a.isDir && !b.isDir then true
  else if b.isDir && !a.isDir then false
  else decide (nameLt a.fileName b.fileName)

/-- The non-strict relation induced by the strict comparator `fileCompare`,
i.e. "`b` does not have to come before `a`".  `std::sort` with comparator
`lt` produces a sequence sorted with respect to this relation. -/
def fileLE (a b : QFileInfo) : Prop := fileCompare b a = false

instance : DecidableRel fileLE := fun a b => by
  unfold fileLE; infer_instance

/-- Signals / model-reset notifications emitted during an operation, in
order. -/
inductive Sig where
  | beginReset
  | pathChanged
  | endReset
deriving DecidableEq, Repr

/-- Filesystem calls issued during an operation, in order. -/
inductive FsOp where
  | fileRename (oldPath newPath : String)
  | dirRename (oldPath newPath : String)
  | remove (p : String)
deriving DecidableEq, Repr

/-- The filesystem as seen by directory enumeration: `none` for a missing or
unreadable directory (the iterator yields nothing), `some l` for the raw
iterator contents. -/
def FileSystem : Type := String → Option (List QFileInfo)

/-- The enumeration loop of `DirModel::setPath`: skip entries whose name has
`.` as first character (`it.fileName()[0] == QLatin1Char('.')`). -/
def scanContents (raw : List QFileInfo) : List QFileInfo :=
  raw.filter (fun fi => !(fi.fileName.front == '.'))

/-- `std::sort(begin, end, DirModel::fileCompare)`: a permutation of the
input sorted with respect to `fileLE` (modelled by insertion sort; `std::sort`
guarantees exactly sortedness for a strict weak order plus permutation). -/
def sortContents (l : List QFileInfo) : List QFileInfo :=
  l.insertionSort fileLE

/-- `DirModel::setPath`: unconditionally resets the model, enumerates the
target (a missing or unreadable directory enumerates as empty), filters
hidden entries, sorts, commits the new contents and path, and emits
`pathChanged` between `beginResetModel` and `endResetModel`.  The previous
state `m` does not influence the result (the contents are cleared and
rebuilt). -/
def DirModel.setPath (_m : DirModel) (fs : FileSystem) (pathName : String) :
    DirModel × List Sig :=
  let raw : List QFileInfo := (fs pathName).getD []
  let directoryContents := sortContents (scanContents raw)
  (⟨pathName, directoryContents⟩, [Sig.beginReset, Sig.pathChanged, Sig.endReset])

/-- `DirModel::refresh()`: `setPath(path())`. -/
def DirModel.refresh (m : DirModel) (fs : FileSystem) : DirModel × List Sig :=
  m.setPath fs m.path

/-- The `foreach` loop of `DirModel::rm`.  `removeOk p` is the return value
of `QFile::remove(p)` (`true` on success).  The loop computes
`error |= QFile::remove(path)` and, when `error` is set, emits a
"Failed to remove" warning for the path and clears `error`.  Returns the
removal calls issued and the paths warned about. -/
def rmLoop (removeOk : String → Bool) (error : Bool) :
    List String → List FsOp × List String
  | [] => ([], [])
  | p :: rest =>
    let e := error || removeOk p
    if e then
      let r := rmLoop removeOk false rest
      (FsOp.remove p :: r.1, p :: r.2)
    else
      let r := rmLoop removeOk e rest
      (FsOp.remove p :: r.1, r.2)

/-- Outcome of `DirModel::rm`: warnings issued, final model state, signals
and filesystem calls, in order. -/
structure RmOutcome where
  warnings : List String
  model : DirModel
  sigs : List Sig
  fsOps : List FsOp
deriving DecidableEq, Repr

/-- `DirModel::rm(paths)`: attempt `QFile::remove` on every path, then
`refresh()` once.  `fs` is the filesystem state at refresh time. -/
def DirModel.rm (m : DirModel) (fs : FileSystem) (removeOk : String → Bool)
    (paths : List String) : RmOutcome :=
  let r := rmLoop removeOk false paths
  let res := m.refresh fs
  ⟨r.2, res.1, res.2, r.1⟩

/-- Outcome of `DirModel::rename`: returned boolean, final model state,
signals and filesystem calls, in order. -/
structure RenameOutcome where
  retval : Bool
  model : DirModel
  sigs : List Sig
  fsOps : List FsOp
deriving DecidableEq, Repr

/-- `DirModel::rename(row, newName)`.  `renameOk` is the return value of the
OS rename primitive (`QFile::rename` for files, `QDir::rename` for
directories); `fs` is the filesystem state at refresh time.  Out-of-bounds
rows return `false` before any filesystem call.  For a file, `refresh()` runs
only on success; for a directory, `refresh()` runs unconditionally and the
primitive's boolean is returned. -/
def DirModel.rename (m : DirModel) (fs : FileSystem) (renameOk : Bool)
    (row : Int) (newName : String) : RenameOutcome :=
  if row < 0 ∨ (m.mDirectoryContents.length : Int) ≤ row then
    ⟨false, m, [], []⟩
  else
    match m.mDirectoryContents[row.toNat]? with
    | none => ⟨false, m, [], []⟩
    | some fi =>
      if !fi.isDir then
        let op := FsOp.fileRename fi.absoluteFilePath
          (fi.absolutePath ++ "/" ++ newName)
        if renameOk then
          let res := m.refresh fs
          ⟨true, res.1, res.2, [op]⟩
        else
          ⟨false, m, [], [op]⟩
      else
        let op := FsOp.dirRename fi.absoluteFilePath
          (fi.absolutePath ++ "/" ++ newName)
        let res := m.refresh fs
        ⟨renameOk, res.1, res.2, [op]⟩

/-! ### Concrete fixtures used by witnesses and counterexamples -/

/-- A regular 2048-byte file `b` in directory `/d`. -/
def fxFileB : QFileInfo := ⟨"b", "/d", "/d/b", false, 2048, 10, 20⟩

/-- A regular 500-byte file `c` in directory `/d`. -/
def fxFileC : QFileInfo := ⟨"c", "/d", "/d/c", false, 500, 11, 21⟩

/-- A subdirectory `s` of `/d`. -/
def fxDirS : QFileInfo := ⟨"s", "/d", "/d/s", true, 0, 12, 22⟩

/-- A hidden file `.h` in directory `/d`. -/
def fxHidden : QFileInfo := ⟨".h", "/d", "/d/.h", false, 7, 13, 23⟩

/-- A filesystem with a single readable directory `/d`; every other path is
missing or unreadable. -/
def fxFs : FileSystem := fun q =>
  if q = "/d" then some [fxFileB, fxHidden, fxDirS, fxFileC] else none

/-- A model that has loaded `/d` under `fxFs` (directory first, then the
files in name order, hidden entry excluded). -/
def fxModel : DirModel := ⟨"/d", [fxDirS, fxFileB, fxFileC]⟩

/-! ### The comparator is a total preorder -/

/-- Characterisation of `fileCompare` as a lexicographic strict order on the
pair (directory flag, name). -/
theorem fileCompare_eq_true_iff (a b : QFileInfo) :
    fileCompare a b = true ↔
      (a.isDir = true ∧ b.isDir = false) ∨
      (a.isDir = b.isDir ∧ nameLt a.fileName b.fileName) := by
  unfold fileCompare
  cases ha : a.isDir <;> cases hb : b.isDir <;> simp [ha, hb]

theorem fileLE_total (a b : QFileInfo) : fileLE a b ∨ fileLE b a := by
  unfold fileLE
  by_cases h : fileCompare b a = false
  · exact Or.inl h
  · right
    replace h : fileCompare b a = true := by
      cases hba : fileCompare b a
      · exact absurd hba h
      · rfl
    rw [fileCompare_eq_true_iff] at h
    cases hab : fileCompare a b
    · rfl
    · exfalso
      rw [fileCompare_eq_true_iff] at hab
      rcases h with ⟨hb, ha⟩ | ⟨hba, hlt⟩ <;>
        rcases hab with ⟨ha2, hb2⟩ | ⟨hab2, hlt2⟩ <;>
        simp_all [nameLt]
      exact absurd hlt2 (lt_asymm hlt)

theorem fileLE_trans (a b c : QFileInfo) (h1 : fileLE a b) (h2 : fileLE b c) :
    fileLE a c := by
  unfold fileLE at *
  cases hac : fileCompare c a
  · rfl
  · exfalso
    rw [fileCompare_eq_true_iff] at hac
    have h1n : ¬ fileCompare b a = true := by simp [h1]
    have h2n : ¬ fileCompare c b = true := by simp [h2]
    rw [fileCompare_eq_true_iff] at h1n h2n
    push_neg at h1n h2n
    rcases hac with ⟨hc, ha⟩ | ⟨hca, hlt⟩
    · cases hb : b.isDir
      · exact absurd (h2n.1 hc) (by simp [hb])
      · exact absurd (h1n.1 hb) (by simp [ha])
    · by_cases hcb : c.isDir = b.isDir
      case neg =>
        cases hcv : c.isDir
        · have hbdir : b.isDir = true := by
            cases hbv : b.isDir
            · exact absurd (hcv.trans hbv.symm) hcb
            · rfl
          exact absurd (h1n.1 hbdir) (by simp [← hca, hcv])
        · have hbdir : b.isDir = false := by
            cases hbv : b.isDir
            · rfl
            · exact absurd (hcv.trans hbv.symm) hcb
          exact (h2n.1 hcv) hbdir
      case pos =>
        have hba : b.isDir = a.isDir := by rw [← hca, hcb]
        have hge1 := h1n.2 hba
        have hge2 := h2n.2 hcb
        unfold nameLt at *
        have hab : a.fileName.data ≤ b.fileName.data := not_lt.mp hge1
        have hbc : b.fileName.data ≤ c.fileName.data := not_lt.mp hge2
        exact absurd hlt (not_lt.mpr (le_trans hab hbc))

instance : IsTotal QFileInfo fileLE := ⟨fileLE_total⟩

instance : IsTrans QFileInfo fileLE := ⟨fileLE_trans⟩

/-- The committed contents of `setPath` are sorted with respect to the
comparator's non-strict relation. -/
theorem sorted_sortContents (l : List QFileInfo) :
    List.Sorted fileLE (sortContents l) :=
  List.sorted_insertionSort fileLE l

/-! ### Helper lemmas about the accessors -/

theorem dataForRole_fileName (fi : QFileInfo) :
    dataForRole fi FileNameRole = some (QVariantVal.str fi.fileName) := rfl

theorem dataForRole_fileSize (fi : QFileInfo) :
    dataForRole fi FileSizeRole = some (QVariantVal.str (fileSizeString fi.size)) := rfl

theorem dataForRole_isDir (fi : QFileInfo) :
    dataForRole fi IsDirRole = some (QVariantVal.boolean fi.isDir) := rfl

theorem dataForRole_isFile (fi : QFileInfo) :
    dataForRole fi IsFileRole = some (QVariantVal.boolean (!fi.isDir)) := rfl

/-- For an in-range role and row, `data` is the switch body applied to the
entry at the row. -/
theorem data_in_range (m : DirModel) (row : Int) (fi : QFileInfo) (role : Nat)
    (hrole : FileNameRole ≤ role ∧ role ≤ IsFileRole)
    (hge : 0 ≤ row) (hlt : row < (m.mDirectoryContents.length : Int))
    (hfi : m.mDirectoryContents[row.toNat]? = some fi) :
    m.data row role = dataForRole fi role := by
  rw [DirModel.data,
    if_neg (not_or.mpr ⟨not_lt.mpr hrole.1, not_lt.mpr hrole.2⟩),
    if_neg (not_or.mpr ⟨not_lt.mpr hge, not_le.mpr hlt⟩), hfi]

/-- String-keyed access for a key present in the role mapping delegates to
integer-role access. -/
theorem dataByName_known (m : DirModel) (row : Int) (key : String) (role : Nat)
    (h : mRoleMapping key = some role) : m.dataByName row key = m.data row role := by
  rw [DirModel.dataByName, h]

/-- The committed contents of `setPath` are those of `sortContents` applied
to the filtered scan. -/
theorem setPath_contents (m : DirModel) (fs : FileSystem) (p : String) :
    (m.setPath fs p).1.mDirectoryContents =
      sortContents (scanContents ((fs p).getD [])) := rfl

/-! ### Claim theorems -/

/-- Claim C4: in every Listing produced by Load (`setPath`), every
directory-classified entry occupies a lower row index than every
non-directory entry, and within each of the two partitions entries are in
ascending name order under the modelled collation; in particular no pair of
positions `i < j` (hence no adjacent pair) has a file at `i` and a directory
at `j`. -/
theorem setPath_listing_ordered (m : DirModel) (fs : FileSystem) (p : String)
    (i j : Nat) (hij : i < j) (ei ej : QFileInfo)
    (hi : (m.setPath fs p).1.mDirectoryContents[i]? = some ei)
    (hj : (m.setPath fs p).1.mDirectoryContents[j]? = some ej) :
    (ej.isDir = true → ei.isDir = true) ∧
    (ei.isDir = ej.isDir → ei.fileName.data ≤ ej.fileName.data) ∧
    ¬ (ei.isDir = false ∧ ej.isDir = true) := by
  have hsorted : List.Sorted fileLE (m.setPath fs p).1.mDirectoryContents := by
    rw [setPath_contents]
    exact sorted_sortContents _
  obtain ⟨hilen, higet⟩ := List.getElem?_eq_some.mp hi
  obtain ⟨hjlen, hjget⟩ := List.getElem?_eq_some.mp hj
  have hle : fileLE ei ej := by
    have := (List.pairwise_iff_getElem.mp hsorted) i j hilen hjlen hij
    rwa [higet, hjget] at this
  have hnot : ¬ ((ej.isDir = true ∧ ei.isDir = false) ∨
      (ej.isDir = ei.isDir ∧ nameLt ej.fileName ei.fileName)) := by
    rw [← fileCompare_eq_true_iff]
    simp [fileLE] at hle
    simp [hle]
  push_neg at hnot
  refine ⟨?_, ?_, ?_⟩
  · intro hej
    cases hei : ei.isDir
    · exact absurd hei (hnot.1 hej)
    · rfl
  · intro heq
    have hnlt := hnot.2 heq.symm
    unfold nameLt at hnlt
    exact not_lt.mp hnlt
  · rintro ⟨hei, hej⟩
    exact (hnot.1 hej) hei

/-- Witness for C4 at a concrete filesystem: in the listing of `/d`, the
directory `s` occupies row 0 and the file `b` row 1, and the first conjunct
holds there. -/
theorem setPath_listing_ordered_witness :
    (fxModel.setPath fxFs "/d").1.mDirectoryContents[0]? = some fxDirS ∧
    (fxModel.setPath fxFs "/d").1.mDirectoryContents[1]? = some fxFileB ∧
    (fxFileB.isDir = true → fxDirS.isDir = true) := by
  have h0 : (fxModel.setPath fxFs "/d").1.mDirectoryContents[0]? = some fxDirS := by
    decide
  have h1 : (fxModel.setPath fxFs "/d").1.mDirectoryContents[1]? = some fxFileB := by
    decide
  exact ⟨h0, h1,
    (setPath_listing_ordered fxModel fxFs "/d" 0 1 (by decide) fxDirS fxFileB h0 h1).1⟩

/-- Claim C5: no Listing produced by Load contains an entry whose name
begins with the hidden-file marker `.`; consequently `Field(row, "fileName")`
never yields a string whose first character is `.`. -/
theorem setPath_excludes_hidden (m : DirModel) (fs : FileSystem) (p : String) :
    (∀ e ∈ (m.setPath fs p).1.mDirectoryContents, e.fileName.front ≠ '.') ∧
    (∀ (row : Int) (s : String),
        (m.setPath fs p).1.dataByName row "fileName" = some (QVariantVal.str s) →
        s.front ≠ '.') := by
  have hpart1 : ∀ e ∈ (m.setPath fs p).1.mDirectoryContents,
      e.fileName.front ≠ '.' := by
    intro e he
    rw [setPath_contents] at he
    have hmem : e ∈ scanContents ((fs p).getD []) := by
      simpa [sortContents] using he
    have hkeep := (List.mem_filter.mp hmem).2
    simpa using hkeep
  refine ⟨hpart1, ?_⟩
  intro row s hs
  rw [dataByName_known (m.setPath fs p).1 row "fileName" FileNameRole (by decide)] at hs
  by_cases hb : row < 0 ∨ ((m.setPath fs p).1.mDirectoryContents.length : Int) ≤ row
  · rw [DirModel.data, if_neg (by decide), if_pos hb] at hs
    exact absurd hs (by simp)
  · push_neg at hb
    cases hgot : (m.setPath fs p).1.mDirectoryContents[row.toNat]? with
    | none =>
      rw [DirModel.data, if_neg (by decide),
        if_neg (not_or.mpr ⟨not_lt.mpr hb.1, not_le.mpr hb.2⟩), hgot] at hs
      exact absurd hs (by simp)
    | some fi =>
      rw [data_in_range (m.setPath fs p).1 row fi FileNameRole (by decide)
        hb.1 hb.2 hgot, dataForRole_fileName] at hs
      have hsf : s = fi.fileName := by
        simpa using hs.symm
      rw [hsf]
      exact hpart1 fi (List.getElem?_mem hgot)

/-- Witness for C5: at row 1 of the `/d` listing (which contains a hidden
entry `.h` in the raw scan), the file name is `b`, which does not begin with
`.`. -/
theorem setPath_excludes_hidden_witness :
    (fxModel.setPath fxFs "/d").1.dataByName 1 "fileName" =
      some (QVariantVal.str "b") ∧ "b".front ≠ '.' := by
  have h : (fxModel.setPath fxFs "/d").1.dataByName 1 "fileName" =
      some (QVariantVal.str "b") := by decide
  exact ⟨h, (setPath_excludes_hidden fxModel fxFs "/d").2 1 "b" h⟩

/-- Claim C6: for every in-range row, the size role renders the byte count
as the exact count with unit `bytes` below 1024 bytes, as `size / 1024` with
unit `kb` below 1024 kilobytes, and as `size / 1024 / 1024` with unit `mb`
otherwise; in particular 500 bytes renders as `500 bytes`, 2048 bytes as
`2 kb`, and 5 * 1024 * 1024 bytes as `5mb` (no space before `mb`). -/
theorem data_fileSize_projection (m : DirModel) (row : Int) (fi : QFileInfo)
    (hge : 0 ≤ row) (hlt : row < (m.mDirectoryContents.length : Int))
    (hfi : m.mDirectoryContents[row.toNat]? = some fi) :
    m.data row FileSizeRole = some (QVariantVal.str (fileSizeString fi.size)) ∧
    (fi.size < 1024 →
      fileSizeString fi.size = toString fi.size ++ " bytes") ∧
    (1024 ≤ fi.size → fi.size / 1024 < 1024 →
      fileSizeString fi.size = toString (fi.size / 1024) ++ " kb") ∧
    (1024 ≤ fi.size / 1024 →
      fileSizeString fi.size = toString (fi.size / 1024 / 1024) ++ "mb") ∧
    fileSizeString 500 = "500 bytes" ∧
    fileSizeString 2048 = "2 kb" ∧
    fileSizeString (5 * 1024 * 1024) = "5mb" := by
  refine ⟨?_, ?_, ?_, ?_, by decide, by decide, by decide⟩
  · exact (data_in_range m row fi FileSizeRole (by decide) hge hlt hfi).trans
      (dataForRole_fileSize fi)
  · intro h
    simp only [fileSizeString]
    rw [if_pos (by omega)]
  · intro h1 h2
    simp only [fileSizeString]
    rw [if_neg (by omega), if_pos (by omega)]
  · intro h
    simp only [fileSizeString]
    rw [if_neg (by omega), if_neg (by omega)]

/-- Witness for C6: the 2048-byte file at row 1 of the fixture model renders
as `2 kb`. -/
theorem data_fileSize_projection_witness :
    fxModel.data 1 FileSizeRole = some (QVariantVal.str "2 kb") := by
  have h := (data_fileSize_projection fxModel 1 fxFileB (by decide) (by decide)
    (by decide)).1
  exact h.trans (by decide)

/-- Claim C7: `Field(row, roleKey)` with a key absent from the role map, or
with a row outside `[0, RowCount())`, returns the empty variant; the
accessor is a pure function of the model, so it has no side effect on the
model state. -/
theorem dataByName_error_empty (m : DirModel) (row : Int) (key : String) :
    (mRoleMapping key = none → m.dataByName row key = none) ∧
    ((row < 0 ∨ (m.mDirectoryContents.length : Int) ≤ row) →
      m.dataByName row key = none) := by
  constructor
  · intro h
    rw [DirModel.dataByName, h]
  · intro h
    rw [DirModel.dataByName]
    cases hmap : mRoleMapping key with
    | none => rfl
    | some role =>
      show m.data row role = none
      rw [DirModel.data]
      by_cases hr : role < FileNameRole ∨ IsFileRole < role
      · rw [if_pos hr]
      · rw [if_neg hr, if_pos h]

/-- Witness for C7: on the 3-row fixture listing, an unknown key and the
out-of-range row 999 both yield the empty variant. -/
theorem dataByName_error_empty_witness :
    fxModel.dataByName 0 "bogus" = none ∧
    fxModel.dataByName 999 "fileName" = none :=
  ⟨(dataByName_error_empty fxModel 0 "bogus").1 (by decide),
   (dataByName_error_empty fxModel 999 "fileName").2 (by decide)⟩

/-- Claim C8: `Rename(row, newName)` with `row` outside `[0, RowCount())`
returns `false` immediately: no filesystem call is made, no signal is
emitted, and the model (hence the Listing) is unchanged. -/
theorem rename_out_of_bounds (m : DirModel) (fs : FileSystem) (renameOk : Bool)
    (row : Int) (newName : String)
    (h : row < 0 ∨ (m.mDirectoryContents.length : Int) ≤ row) :
    m.rename fs renameOk row newName = ⟨false, m, [], []⟩ := by
  rw [DirModel.rename, if_pos h]

/-- Witness for C8: renaming row 999 of the 3-row fixture model fails fast
with no filesystem access. -/
theorem rename_out_of_bounds_witness :
    fxModel.rename fxFs true 999 "z" = ⟨false, fxModel, [], []⟩ :=
  rename_out_of_bounds fxModel fxFs true 999 "z" (by decide)

/-- Claim C9: `refresh()` is definitionally re-invoking `setPath` on the
current path, and refreshing twice over an unchanged filesystem yields an
identical model (same Listing rows in the same order, hence identical values
for every row and role). -/
theorem refresh_idempotent (m : DirModel) (fs : FileSystem) :
    m.refresh fs = m.setPath fs m.path ∧
    ((m.refresh fs).1.refresh fs).1 = (m.refresh fs).1 :=
  ⟨rfl, rfl⟩

/-- Claim C10: for every in-range row, the `isFile` role is exactly the
boolean negation of the `isDir` role: every entry is classified as precisely
one of directory or file. -/
theorem data_isFile_negates_isDir (m : DirModel) (row : Int) (fi : QFileInfo)
    (hge : 0 ≤ row) (hlt : row < (m.mDirectoryContents.length : Int))
    (hfi : m.mDirectoryContents[row.toNat]? = some fi) :
    m.data row IsDirRole = some (QVariantVal.boolean fi.isDir) ∧
    m.data row IsFileRole = some (QVariantVal.boolean (!fi.isDir)) :=
  ⟨(data_in_range m row fi IsDirRole (by decide) hge hlt hfi).trans
      (dataForRole_isDir fi),
   (data_in_range m row fi IsFileRole (by decide) hge hlt hfi).trans
      (dataForRole_isFile fi)⟩

/-- Witness for C10: the directory at row 0 of the fixture model reports
`isDir = true` and `isFile = false`. -/
theorem data_isFile_negates_isDir_witness :
    fxModel.data 0 IsDirRole = some (QVariantVal.boolean true) ∧
    fxModel.data 0 IsFileRole = some (QVariantVal.boolean false) :=
  data_isFile_negates_isDir fxModel 0 fxDirS (by decide) (by decide) (by decide)

/-- Claim C1 counterexample: `setPath` on a path the filesystem reports as
missing/unreadable does not leave the model unchanged and surfaces no
failure: the previously held Listing of `/d` is discarded, the current path
becomes the unavailable target, and the empty Listing is committed. -/
theorem setPath_unavailable_counterexample :
    fxFs "/missing" = none ∧
    (fxModel.setPath fxFs "/missing").1 ≠ fxModel ∧
    (fxModel.setPath fxFs "/missing").1.mCurrentDir = "/missing" ∧
    (fxModel.setPath fxFs "/missing").1.mDirectoryContents = [] := by
  decide

/-- Claim C1 as amended: when the target path is missing or unreadable,
`setPath` does not fail and does not preserve the previous state; it resets
the model to an empty Listing, sets the current path to the target, and
emits the same reset/pathChanged signal sequence as a successful load. -/
theorem setPath_unavailable_amended (m : DirModel) (fs : FileSystem)
    (p : String) (h : fs p = none) :
    m.setPath fs p =
      (⟨p, []⟩, [Sig.beginReset, Sig.pathChanged, Sig.endReset]) := by
  rw [DirModel.setPath, h]
  rfl

/-- Witness for the amended C1 at the concrete missing path. -/
theorem setPath_unavailable_amended_witness :
    fxFs "/missing" = none ∧
    fxModel.setPath fxFs "/missing" =
      (⟨"/missing", []⟩, [Sig.beginReset, Sig.pathChanged, Sig.endReset]) :=
  ⟨by decide, setPath_unavailable_amended fxModel fxFs "/missing" (by decide)⟩

/-- A model of `/d` that holds only the subdirectory row (stale with respect
to `fxFs`), used to observe the reload performed by a failed directory
rename. -/
def fxStale : DirModel := ⟨"/d", [fxDirS]⟩

/-- Claim C2 counterexample: renaming the directory at row 0 while the OS
rename primitive reports failure still performs a full reload: the reset
signal sequence fires and the Listing is replaced (here it changes, since
the filesystem holds more entries than the stale model). -/
theorem rename_failure_reload_counterexample :
    fxStale.mDirectoryContents[(0 : Int).toNat]? = some fxDirS ∧
    fxDirS.isDir = true ∧
    (fxStale.rename fxFs false 0 "t").retval = false ∧
    (fxStale.rename fxFs false 0 "t").sigs =
      [Sig.beginReset, Sig.pathChanged, Sig.endReset] ∧
    (fxStale.rename fxFs false 0 "t").model ≠ fxStale := by
  decide

/-- Claim C2 as amended: for an in-bounds row holding a regular file, a
failing rename performs no reload and leaves the Listing unchanged, and a
reload is triggered only on success; for a row holding a directory, the
reload is triggered unconditionally — even when the primitive reports
failure — and the primitive's boolean is returned. -/
theorem rename_reload_policy (m : DirModel) (fs : FileSystem) (renameOk : Bool)
    (row : Int) (newName : String) (fi : QFileInfo)
    (hge : 0 ≤ row) (hlt : row < (m.mDirectoryContents.length : Int))
    (hfi : m.mDirectoryContents[row.toNat]? = some fi) :
    (fi.isDir = false → renameOk = false →
      m.rename fs renameOk row newName =
        ⟨false, m, [],
         [FsOp.fileRename fi.absoluteFilePath
            (fi.absolutePath ++ "/" ++ newName)]⟩) ∧
    (fi.isDir = false → renameOk = true →
      m.rename fs renameOk row newName =
        ⟨true, (m.refresh fs).1, (m.refresh fs).2,
         [FsOp.fileRename fi.absoluteFilePath
            (fi.absolutePath ++ "/" ++ newName)]⟩) ∧
    (fi.isDir = true →
      m.rename fs renameOk row newName =
        ⟨renameOk, (m.refresh fs).1, (m.refresh fs).2,
         [FsOp.dirRename fi.absoluteFilePath
            (fi.absolutePath ++ "/" ++ newName)]⟩) := by
  have hcond : ¬ (row < 0 ∨ (m.mDirectoryContents.length : Int) ≤ row) :=
    not_or.mpr ⟨not_lt.mpr hge, not_le.mpr hlt⟩
  refine ⟨?_, ?_, ?_⟩
  · intro hdir hok
    rw [DirModel.rename, if_neg hcond, hfi]
    simp [hdir, hok]
  · intro hdir hok
    rw [DirModel.rename, if_neg hcond, hfi]
    simp [hdir, hok]
  · intro hdir
    rw [DirModel.rename, if_neg hcond, hfi]
    simp [hdir]

/-- Witness for the amended C2: a failing rename of the regular file at
row 1 returns `false`, leaves the model untouched, emits no signal, and
issues exactly the one file-rename call. -/
theorem rename_reload_policy_witness :
    fxModel.rename fxFs false 1 "z" =
      ⟨false, fxModel, [], [FsOp.fileRename "/d/b" "/d/z"]⟩ := by
  have h := (rename_reload_policy fxModel fxFs false 1 "z" fxFileB (by decide)
    (by decide) (by decide)).1 (by decide) rfl
  exact h.trans (by decide)

/-- The per-path outcome of `QFile::remove` at the C3 failing input: removal
of `/d/b` succeeds, removal of `/d/zz` fails. -/
def fxRemoveOk : String → Bool := fun p => p == "/d/b"

/-- Claim C3 evaluated at the failing input `rm(["/d/b", "/d/zz"])`: every
path is attempted and exactly one reload happens, but because the loop
computes `error |= QFile::remove(path)`, the "Failed to remove" warning is
issued for the path whose removal succeeded and the actual failure is
silently ignored. -/
theorem rm_reports_success_as_failure :
    (fxModel.rm fxFs fxRemoveOk ["/d/b", "/d/zz"]).fsOps =
      [FsOp.remove "/d/b", FsOp.remove "/d/zz"] ∧
    fxRemoveOk "/d/b" = true ∧
    fxRemoveOk "/d/zz" = false ∧
    (fxModel.rm fxFs fxRemoveOk ["/d/b", "/d/zz"]).warnings = ["/d/b"] ∧
    (fxModel.rm fxFs fxRemoveOk ["/d/b", "/d/zz"]).sigs.count Sig.beginReset
      = 1 := by
  decide

end FileMuncher
